import Mathlib

/-!
Shallow embedding of the catalog synchronization subsystem of the NeoCart
backend (src/backend/excel_updater.py, file_watcher.py, api_routes.py,
main.py, database.py, models.py) together with proofs about it.

Modelling conventions:
* DataFrame cells are `Value`s (text or exact rationals); a missing (NaN)
  cell is `Option.none` and `df.fillna('')` replaces it by the empty string.
* Python `float(x)` / `int(x)` coercions are `pyFloat` / `pyInt`, returning
  `none` exactly when CPython raises `ValueError` on the modelled inputs
  (empty or non-numeric strings; `int()` truncates numerics toward zero).
* The SQLAlchemy session of database.py is created with `autoflush=False`
  and `autocommit=False`, so inside one run a query sees only the rows that
  were committed before the run started (`Session.base`), never the rows
  staged with `db.add` (`Session.pending`); attribute assignments on a
  queried object mutate `base` in place (identity map), and `db.commit`
  appends `pending` to `base` while `db.rollback` discards everything.
* Network and parser effects are passed in as explicit inputs
  (`SeedInput`, `ParseOutcome`); exceptions become `Option`/sum results.
-/

/-- Cell values of the loaded DataFrame: a text cell or a numeric cell
(numerics modelled as exact rationals). -/
inductive Value where
  | vStr (s : String)
  | vNum (q : ℚ)
deriving DecidableEq

/-- One row of the tabular document as loaded by `pd.read_excel`, before
`fillna`; `none` is a missing (NaN) cell.  The columns are the ones the
sync loop reads: name, description, original_price, image_url, stock,
retail_price, wholesaler_price. -/
structure RawRow where
  name : Option Value
  description : Option Value
  original_price : Option Value
  image_url : Option Value
  stock : Option Value
  retail_price : Option Value
  wholesaler_price : Option Value
deriving DecidableEq

/-- Embeds `df.fillna('')` (excel_updater.py line 30, api_routes.py line
206): a missing cell becomes the empty string. -/
def fillna (c : Option Value) : Value := c.getD (.vStr "")

/-- Value of an unsigned decimal digit string; `none` when empty or when a
non-digit occurs. -/
def parseDigits (cs : List Char) : Option ℕ :=
  if cs.isEmpty then none
  else
    cs.foldl
      (fun acc c =>
        acc.bind fun n => if c.isDigit then some (10 * n + (c.toNat - 48)) else none)
      (some 0)

/-- Python `int(s)` on a string: optional sign then digits; fails on the
empty string and on anything else (e.g. a decimal point). -/
def pyIntStr (s : String) : Option ℤ :=
  match s.toList with
  | '-' :: rest => (parseDigits rest).map (fun n => -(n : ℤ))
  | '+' :: rest => (parseDigits rest).map (fun n => (n : ℤ))
  | cs => (parseDigits cs).map (fun n => (n : ℤ))

/-- Split a character list at every '.', keeping empty segments. -/
def splitDot : List Char → List (List Char)
  | [] => [[]]
  | c :: rest =>
    match splitDot rest, decide (c = '.') with
    | r, true => [] :: r
    | [], false => [[c]]
    | h :: t, false => (c :: h) :: t

/-- Magnitude part of Python `float(s)`: digits with an optional decimal
point, at least one digit overall. -/
def pyFloatCore (cs : List Char) : Option ℚ :=
  match splitDot cs with
  | [intPart] => (parseDigits intPart).map (fun n => (n : ℚ))
  | [intPart, fracPart] =>
    if intPart.isEmpty && fracPart.isEmpty then none
    else
      let ip := if intPart.isEmpty then some 0 else parseDigits intPart
      let fp := if fracPart.isEmpty then some 0 else parseDigits fracPart
      match ip, fp with
      | some i, some f => some ((i : ℚ) + (f : ℚ) / (10 : ℚ) ^ fracPart.length)
      | _, _ => none
  | _ => none

/-- Python `float(s)` on a string: optional sign then `pyFloatCore`; fails
on the empty string and on non-numeric text (exponent forms and inf/nan,
which the source documents do not use, are out of the modelled subset). -/
def pyFloatStr (s : String) : Option ℚ :=
  match s.toList with
  | '-' :: rest => (pyFloatCore rest).map (fun q => -q)
  | '+' :: rest => pyFloatCore rest
  | cs => pyFloatCore cs

/-- Python `float(x)` on a cell value. -/
def pyFloat (v : Value) : Option ℚ :=
  match v with
  | .vNum q => some q
  | .vStr s => pyFloatStr s

/-- Python `int(x)` on a cell value; on numerics it truncates toward zero
as CPython does. -/
def pyInt (v : Value) : Option ℤ :=
  match v with
  | .vNum q => some (q.num.tdiv (q.den : ℤ))
  | .vStr s => pyIntStr s

/-- The `products` table row (models.py `Product`, lines 29-42): `name` is
indexed but carries NO unique constraint.  The fields the sync loop never
coerces (`name`, `description`, `image_url`) keep their raw cell values. -/
structure Product where
  name : Value
  description : Value
  original_price : ℚ
  image_url : Value
  stock : ℤ
  retail_price : ℚ
  wholesaler_price : ℚ
deriving DecidableEq

/-- A source row after the per-row coercions the loop performs
(`float(row['original_price'])`, `int(row['stock'])`, `float(row['retail_price'])`,
`float(row['wholesaler_price'])` — excel_updater.py lines 38-52). -/
structure Record where
  name : Value
  description : Value
  original_price : ℚ
  image_url : Value
  stock : ℤ
  retail_price : ℚ
  wholesaler_price : ℚ
deriving DecidableEq

/-- The `Product(...)` constructor call of excel_updater.py lines 45-53. -/
def Record.toProduct (r : Record) : Product :=
  ⟨r.name, r.description, r.original_price, r.image_url, r.stock,
   r.retail_price, r.wholesaler_price⟩

/-- The four numeric coercions of one row; `none` when any of them raises
`ValueError` in the source. -/
def coerceRow (row : RawRow) : Option Record :=
  match pyFloat (fillna row.original_price), pyInt (fillna row.stock),
        pyFloat (fillna row.retail_price), pyFloat (fillna row.wholesaler_price) with
  | some op, some st, some rp, some wp =>
    some ⟨fillna row.name, fillna row.description, op, fillna row.image_url, st, rp, wp⟩
  | _, _, _, _ => none

/-- Coercion of a whole row list; `none` as soon as one row fails. -/
def coerceRows : List RawRow → Option (List Record)
  | [] => some []
  | row :: rest =>
    match coerceRow row, coerceRows rest with
    | some r, some rs => some (r :: rs)
    | _, _ => none

/-- State of one SQLAlchemy session during a run (database.py line 17:
`autocommit=False, autoflush=False`): `base` is the committed store, with
in-place mutations of queried objects applied; `pending` holds the
`db.add`ed objects, which stay unflushed and hence invisible to queries
until `db.commit`. -/
structure Session where
  base : List Product
  pending : List Product
deriving DecidableEq

/-- The lookup `db.query(Product).filter(Product.name == row['name']).first()`
is not `None`: because autoflush is off it consults only the committed
rows, never the pending inserts of the same run. -/
def presentIn (base : List Product) (r : Record) : Bool :=
  base.any fun p => decide (p.name = r.name)

/-- Overwriting of all mutable fields of a fetched product
(excel_updater.py lines 37-42); `name` is never reassigned. -/
def overwrite (p : Product) (r : Record) : Product :=
  { p with description := r.description, original_price := r.original_price,
           image_url := r.image_url, stock := r.stock,
           retail_price := r.retail_price, wholesaler_price := r.wholesaler_price }

/-- In-place mutation of the object `.first()` returns: the first committed
row with the matching name is overwritten, the rest untouched. -/
def updateFirst (l : List Product) (r : Record) : List Product :=
  match l with
  | [] => []
  | p :: rest =>
    if p.name = r.name then overwrite p r :: rest
    else p :: updateFirst rest r

/-- Loop accumulator: the session plus the `added` and `updated` counters
(excel_updater.py line 32). -/
structure RunAcc where
  sess : Session
  added : ℕ
  updated : ℕ
deriving DecidableEq

/-- One iteration of the row loop (excel_updater.py lines 34-55,
api_routes.py lines 211-233 — the two loops are textually identical):
coercion failure raises, ending the run; otherwise update-or-insert. -/
def processRow (acc : RunAcc) (row : RawRow) : Option RunAcc :=
  (coerceRow row).map fun r =>
    if presentIn acc.sess.base r then
      { acc with sess := { acc.sess with base := updateFirst acc.sess.base r },
                 updated := acc.updated + 1 }
    else
      { acc with sess := { acc.sess with pending := acc.sess.pending ++ [r.toProduct] },
                 added := acc.added + 1 }

/-- The whole `for _, row in df.iterrows()` loop; `none` when some row
raised (the exception aborts the remaining rows). -/
def processRows : List RawRow → RunAcc → Option RunAcc
  | [], acc => some acc
  | row :: rest, acc =>
    match processRow acc row with
    | none => none
    | some next => processRows rest next

/-- External effects of one `run_seeding` call: the `requests.get` either
raises (connection error) or yields a status code and a body whose
`pd.read_excel` either raises or yields rows. -/
inductive ParseOutcome where
  | parseError
  | table (rows : List RawRow)
deriving DecidableEq

/-- Fetch effect for `run_seeding`. -/
inductive SeedInput where
  | connError
  | httpResponse (status : ℕ) (body : ParseOutcome)
deriving DecidableEq

/-- Observable outcome of one `run_seeding` call, read off its prints and
its effect: skipped on a busy lock, early return on a bad status, caught
exception with rollback, or commit with counts. -/
inductive SeedOutcome where
  | skipped
  | fetchFailed (status : ℕ)
  | errorRolledBack
  | success (added updated : ℕ)
deriving DecidableEq

/-- Embeds `run_seeding` (excel_updater.py lines 13-65).  `lockFree` is
whether `update_lock.acquire(blocking=False)` succeeds.  Any exception in
the try block is caught, `db.rollback()` discards the session, and the
committed store is returned unchanged; on success `db.commit()` makes the
pending inserts and in-place updates durable. -/
def run_seeding (lockFree : Bool) (inp : SeedInput) (store : List Product) :
    SeedOutcome × List Product :=
  if lockFree then
    match inp with
    | .connError => (.errorRolledBack, store)
    | .httpResponse status body =>
      if status ≠ 200 then (.fetchFailed status, store)
      else
        match body with
        | .parseError => (.errorRolledBack, store)
        | .table rows =>
          match processRows rows ⟨⟨store, []⟩, 0, 0⟩ with
          | none => (.errorRolledBack, store)
          | some acc => (.success acc.added acc.updated, acc.sess.base ++ acc.sess.pending)
  else (.skipped, store)

/-- Observable outcome of one `admin_upload_excel` call: HTTP 500 after
rollback, or the success payload with its counts. -/
inductive UploadOutcome where
  | http500
  | successResp (added updated : ℕ)
deriving DecidableEq

/-- Embeds `admin_upload_excel` (api_routes.py lines 194-244).  It runs the
same row loop as `run_seeding` on a session from the same
`SessionLocal` factory, but acquires no lock at all; any exception rolls
back and raises `HTTPException(500)`. -/
def admin_upload_excel (body : ParseOutcome) (store : List Product) :
    UploadOutcome × List Product :=
  match body with
  | .parseError => (.http500, store)
  | .table rows =>
    match processRows rows ⟨⟨store, []⟩, 0, 0⟩ with
    | none => (.http500, store)
    | some acc => (.successResp acc.added acc.updated, acc.sess.base ++ acc.sess.pending)

/-- Watcher state across ticks (file_watcher.py line 14): the module-global
`_last_hash` plus the catalog store the runs act on. -/
structure WatchState where
  lastHash : Option String
  store : List Product
deriving DecidableEq

/-- External effects of one loop iteration of `watch_google_sheet`:
`get_file_hash()` returns `none` on any fetch failure (it catches its own
exceptions, file_watcher.py lines 16-27) or the MD5 hex digest of the
fetched bytes; the lock state and fetch/parse effects feed `run_seeding`. -/
structure TickEnv where
  hashResult : Option String
  lockFree : Bool
  seedInput : SeedInput
deriving DecidableEq

/-- Python truthiness of `new_hash` in `if new_hash and ...`: `None` and
the empty string are falsy (a real MD5 hex digest is never empty). -/
def truthyHash : Option String → Bool
  | none => false
  | some h => !h.isEmpty

/-- One iteration of the `while True` loop of `watch_google_sheet`
(file_watcher.py lines 35-45): on a truthy digest different from
`_last_hash` it calls `run_seeding()` and then unconditionally stores
`_last_hash = new_hash`; otherwise it does nothing.  The second component
reports whether and how `run_seeding` ran (`none` = not called). -/
def watch_tick (env : TickEnv) (st : WatchState) : WatchState × Option SeedOutcome :=
  if truthyHash env.hashResult && decide (env.hashResult ≠ st.lastHash) then
    ((⟨env.hashResult, (run_seeding env.lockFree env.seedInput st.store).2⟩ : WatchState),
     some (run_seeding env.lockFree env.seedInput st.store).1)
  else (st, none)

/-- Iterated watcher ticks, one environment per iteration; the loop body is
a total function, so the loop survives any sequence of failures. -/
def watch_ticks (envs : List TickEnv) (st : WatchState) : WatchState :=
  envs.foldl (fun s e => (watch_tick e s).1) st

/-- Module attributes of `backend.excel_updater` (its top-level names):
the only seeding entry point it defines is `run_seeding`. -/
def excel_updater_attrs : List String :=
  ["pd", "requests", "BytesIO", "threading", "SessionLocal", "Product",
   "EXCEL_URL", "update_lock", "run_seeding"]

/-- Module attributes of `backend.file_watcher`: the only watcher starter
it defines is `start_watcher_in_thread`. -/
def file_watcher_attrs : List String :=
  ["time", "threading", "hashlib", "requests", "run_seeding", "EXCEL_URL",
   "CHECK_INTERVAL", "_last_hash", "get_file_hash", "watch_google_sheet",
   "start_watcher_in_thread"]

/-- Python attribute lookup `module.name` succeeds exactly when the module
defines the name; otherwise it raises `AttributeError`. -/
def getattrOk (attrs : List String) (nm : String) : Bool := attrs.contains nm

/-- Result of the startup handler: whether a seeding run actually executed
and whether the watcher thread actually started, plus which of the two
try/except blocks caught an `AttributeError`. -/
structure StartupResult where
  syncRan : Bool
  syncErrorCaught : Bool
  watcherStarted : Bool
  watcherErrorCaught : Bool
deriving DecidableEq

/-- Embeds `startup_event` (main.py lines 59-78): it calls
`excel_updater.sync_excel_with_database()` and `file_watcher.start_watcher()`
inside try/except blocks; an attribute lookup failure is caught and only
printed, so the handler completes either way. -/
def startup_event : StartupResult :=
  let syncOk := getattrOk excel_updater_attrs "sync_excel_with_database"
  let watchOk := getattrOk file_watcher_attrs "start_watcher"
  { syncRan := syncOk
    syncErrorCaught := !syncOk
    watcherStarted := watchOk
    watcherErrorCaught := !watchOk }

/-- The polling period of the watcher loop (file_watcher.py line 11). -/
def CHECK_INTERVAL : ℕ := 20

/-- Program counter of one `run_seeding` invocation, for the interleaving
model of the lock discipline: `acquire(blocking=False)` at line 15, the
session transaction between `SessionLocal()` and `db.commit()`, and the
`finally` release at line 65; a failed acquire returns at line 17. -/
inductive SeedPC where
  | start
  | acquired
  | inTxn
  | committed
  | released
  | skippedRet
deriving DecidableEq, Fintype

/-- Program counter of one `admin_upload_excel` invocation: it opens its
transaction and commits without ever touching `update_lock`. -/
inductive AdminPC where
  | start
  | inTxn
  | done
deriving DecidableEq, Fintype

/-- One atomic step of a `run_seeding` task given the current lock value:
returns the new lock value and program counter.  Terminal counters
self-loop (the thread is finished). -/
def seedStep (lock : Bool) (pc : SeedPC) : Bool × SeedPC :=
  match pc with
  | .start => if lock then (lock, .skippedRet) else (true, .acquired)
  | .acquired => (lock, .inTxn)
  | .inTxn => (lock, .committed)
  | .committed => (false, .released)
  | .released => (lock, .released)
  | .skippedRet => (lock, .skippedRet)

/-- One atomic step of an `admin_upload_excel` task; it never reads or
writes the lock. -/
def adminStep (pc : AdminPC) : AdminPC :=
  match pc with
  | .start => .inTxn
  | .inTxn => .done
  | .done => .done

/-- Joint state of two concurrent `run_seeding` invocations sharing
`update_lock`. -/
structure TwoSeedSys where
  lock : Bool
  pc1 : SeedPC
  pc2 : SeedPC
deriving DecidableEq, Fintype

/-- Interleaving step: the scheduler picks task 1 (`true`) or task 2. -/
def twoSeedStep (s : TwoSeedSys) (who : Bool) : TwoSeedSys :=
  if who then
    ⟨(seedStep s.lock s.pc1).1, (seedStep s.lock s.pc1).2, s.pc2⟩
  else
    ⟨(seedStep s.lock s.pc2).1, s.pc1, (seedStep s.lock s.pc2).2⟩

/-- Run a whole interleaving schedule from a joint state. -/
def twoSeedRun (sched : List Bool) (s : TwoSeedSys) : TwoSeedSys :=
  sched.foldl twoSeedStep s

/-- Whether a `run_seeding` task is currently inside its open catalog
transaction. -/
def seedInTxn (pc : SeedPC) : Bool :=
  match pc with
  | .inTxn => true
  | _ => false

/-- Whether a `run_seeding` task currently holds `update_lock`. -/
def seedLockHeld (pc : SeedPC) : Bool :=
  match pc with
  | .acquired => true
  | .inTxn => true
  | .committed => true
  | _ => false

/-- Lock-discipline invariant of two interleaved `run_seeding` tasks: the
lock is set exactly when some task holds it, and never both hold it. -/
def twoSeedInv (s : TwoSeedSys) : Bool :=
  (s.lock == (seedLockHeld s.pc1 || seedLockHeld s.pc2))
    && !(seedLockHeld s.pc1 && seedLockHeld s.pc2)

/-- Joint state of a `run_seeding` invocation interleaved with an
`admin_upload_excel` invocation; only the former uses `update_lock`. -/
structure SeedAdminSys where
  lock : Bool
  pcS : SeedPC
  pcA : AdminPC
deriving DecidableEq, Fintype

/-- Interleaving step: `true` advances the `run_seeding` task, `false` the
admin-upload task. -/
def seedAdminStep (s : SeedAdminSys) (who : Bool) : SeedAdminSys :=
  if who then
    ⟨(seedStep s.lock s.pcS).1, (seedStep s.lock s.pcS).2, s.pcA⟩
  else
    ⟨s.lock, s.pcS, adminStep s.pcA⟩

/-- Run a whole interleaving schedule for the seed/admin pair. -/
def seedAdminRun (sched : List Bool) (s : SeedAdminSys) : SeedAdminSys :=
  sched.foldl seedAdminStep s

/-! Helper lemmas about the row loop. -/

theorem overwrite_name (p : Product) (r : Record) : (overwrite p r).name = p.name := rfl

theorem updateFirst_map_name (l : List Product) (r : Record) :
    (updateFirst l r).map Product.name = l.map Product.name := by
  induction l with
  | nil => rfl
  | cons p t ih =>
    by_cases hp : p.name = r.name
    · simp [updateFirst, hp, overwrite_name]
    · simp [updateFirst, hp, ih]

theorem presentIn_iff (base : List Product) (r : Record) :
    presentIn base r = true ↔ r.name ∈ base.map Product.name := by
  simp only [presentIn, List.any_eq_true, decide_eq_true_eq, List.mem_map]

theorem presentIn_congr (b₁ b₂ : List Product) (r : Record)
    (h : b₁.map Product.name = b₂.map Product.name) :
    presentIn b₁ r = presentIn b₂ r := by
  cases hb : presentIn b₁ r <;> cases hc : presentIn b₂ r
  · rfl
  · exfalso
    have h2 := (presentIn_iff b₂ r).mp hc
    rw [← h] at h2
    have hx := (presentIn_iff b₁ r).mpr h2
    rw [hb] at hx
    exact Bool.false_ne_true hx
  · exfalso
    have h1 := (presentIn_iff b₁ r).mp hb
    rw [h] at h1
    have hx := (presentIn_iff b₂ r).mpr h1
    rw [hc] at hx
    exact Bool.false_ne_true hx
  · rfl

/-- Characterization of a whole successful pass of the row loop: because
queries see only the committed rows (autoflush off) and updates never
change a row's name, membership tests throughout the loop agree with
membership in the initial committed store; the updates are the in-order
fold of `updateFirst` over the matching records, the inserts are the
non-matching records in order, and the counters count the two classes. -/
theorem processRows_spec :
    ∀ (rows : List RawRow) (rs : List Record), coerceRows rows = some rs →
    ∀ (base pending : List Product) (a u : ℕ),
    processRows rows ⟨⟨base, pending⟩, a, u⟩ =
      some ⟨⟨(rs.filter fun r => presentIn base r).foldl updateFirst base,
             pending ++ (rs.filter fun r => !presentIn base r).map Record.toProduct⟩,
            a + (rs.filter fun r => !presentIn base r).length,
            u + (rs.filter fun r => presentIn base r).length⟩ := by
  intro rows
  induction rows with
  | nil =>
    intro rs h base pending a u
    simp only [coerceRows, Option.some.injEq] at h
    subst h
    simp [processRows]
  | cons row rest ih =>
    intro rs h base pending a u
    simp only [coerceRows] at h
    cases hc : coerceRow row with
    | none => rw [hc] at h; simp at h
    | some r =>
      rw [hc] at h
      cases hcs : coerceRows rest with
      | none => rw [hcs] at h; simp at h
      | some rt =>
        rw [hcs] at h
        simp only [Option.some.injEq] at h
        subst h
        have hfun : presentIn (updateFirst base r) = presentIn base :=
          funext fun x => presentIn_congr _ _ x (updateFirst_map_name base r)
        by_cases hp : presentIn base r = true
        · have step : processRows (row :: rest) ⟨⟨base, pending⟩, a, u⟩ =
              processRows rest ⟨⟨updateFirst base r, pending⟩, a, u + 1⟩ := by
            simp [processRows, processRow, hc, hp]
          have hfL : List.filter (fun x => presentIn base x) (r :: rt)
              = r :: List.filter (fun x => presentIn base x) rt := by
            simp [List.filter_cons, hp]
          have hfN : List.filter (fun x => !presentIn base x) (r :: rt)
              = List.filter (fun x => !presentIn base x) rt := by
            simp [List.filter_cons, hp]
          rw [step, ih rt hcs (updateFirst base r) pending a (u + 1)]
          simp only [hfun, hfL, hfN, List.foldl_cons, List.length_cons,
            Option.some.injEq, RunAcc.mk.injEq, Session.mk.injEq,
            and_true, true_and]
          omega
        · have hp2 : presentIn base r = false := by
            cases hpv : presentIn base r
            · rfl
            · exact absurd hpv hp
          have step : processRows (row :: rest) ⟨⟨base, pending⟩, a, u⟩ =
              processRows rest ⟨⟨base, pending ++ [r.toProduct]⟩, a + 1, u⟩ := by
            simp [processRows, processRow, hc, hp2]
          have hfL : List.filter (fun x => presentIn base x) (r :: rt)
              = List.filter (fun x => presentIn base x) rt := by
            simp [List.filter_cons, hp2]
          have hfN : List.filter (fun x => !presentIn base x) (r :: rt)
              = r :: List.filter (fun x => !presentIn base x) rt := by
            simp [List.filter_cons, hp2]
          rw [step, ih rt hcs base (pending ++ [r.toProduct]) (a + 1) u]
          simp only [hfL, hfN, List.map_cons, List.length_cons,
            Option.some.injEq, RunAcc.mk.injEq, Session.mk.injEq,
            List.append_assoc, List.singleton_append, and_true, true_and]
          omega

/-- A row whose coercion raises aborts the whole loop, wherever it sits. -/
theorem processRows_bad (rows : List RawRow) (row : RawRow) (hmem : row ∈ rows)
    (hbad : coerceRow row = none) : ∀ acc : RunAcc, processRows rows acc = none := by
  induction rows with
  | nil => cases hmem
  | cons hd tl ih =>
    intro acc
    cases hmem with
    | head => simp [processRows, processRow, hbad]
    | tail _ hmem2 =>
      cases hph : processRow acc hd with
      | none => simp [processRows, hph]
      | some next => simp [processRows, hph]; exact ih hmem2 next

/-- Any of the four numeric coercions failing makes the whole row fail. -/
theorem coerceRow_eq_none (row : RawRow)
    (h : pyFloat (fillna row.original_price) = none
       ∨ pyFloat (fillna row.retail_price) = none
       ∨ pyFloat (fillna row.wholesaler_price) = none
       ∨ pyInt (fillna row.stock) = none) :
    coerceRow row = none := by
  unfold coerceRow
  cases h1 : pyFloat (fillna row.original_price) <;>
    cases h2 : pyInt (fillna row.stock) <;>
      cases h3 : pyFloat (fillna row.retail_price) <;>
        cases h4 : pyFloat (fillna row.wholesaler_price) <;>
          simp_all

theorem foldl_updateFirst_map_name (rs : List Record) :
    ∀ base : List Product,
    ((rs.foldl updateFirst base).map Product.name) = base.map Product.name := by
  induction rs with
  | nil => intro base; rfl
  | cons r rt ih =>
    intro base
    rw [List.foldl_cons, ih, updateFirst_map_name]

theorem foldl_eq_self {α β : Type} (f : α → β → α) (b : α) (l : List β)
    (h : ∀ x ∈ l, f b x = b) : l.foldl f b = b := by
  induction l with
  | nil => rfl
  | cons x t ih =>
    rw [List.foldl_cons, h x (by simp)]
    exact ih (fun y hy => h y (by simp [hy]))

theorem updateFirst_eq_self (l : List Product) (r : Record)
    (h : ∀ p ∈ l, p.name = r.name → overwrite p r = p) : updateFirst l r = l := by
  induction l with
  | nil => rfl
  | cons p t ih =>
    by_cases hp : p.name = r.name
    · simp [updateFirst, hp, h p (by simp) hp]
    · simp [updateFirst, hp]
      exact ih (fun q hq hqn => h q (by simp [hq]) hqn)

theorem overwrite_toProduct (r : Record) :
    overwrite (Record.toProduct r) r = Record.toProduct r := rfl

/-- A successful fetch-and-parse run of `run_seeding`, in closed form. -/
theorem run_seeding_success (store : List Product) (rows : List RawRow)
    (rs : List Record) (hc : coerceRows rows = some rs) :
    run_seeding true (.httpResponse 200 (.table rows)) store =
      (.success (rs.filter fun r => !presentIn store r).length
                (rs.filter fun r => presentIn store r).length,
       (rs.filter fun r => presentIn store r).foldl updateFirst store
         ++ (rs.filter fun r => !presentIn store r).map Record.toProduct) := by
  have h := processRows_spec rows rs hc store [] 0 0
  simp [run_seeding, h]

/-! Helper lemmas about the interleaving model of the lock. -/

theorem twoSeedInv_step :
    ∀ (s : TwoSeedSys) (w : Bool), twoSeedInv s = true → twoSeedInv (twoSeedStep s w) = true := by
  decide

theorem twoSeedRun_inv (sched : List Bool) :
    ∀ s : TwoSeedSys, twoSeedInv s = true → twoSeedInv (twoSeedRun sched s) = true := by
  induction sched with
  | nil => intro s h; exact h
  | cons w t ih =>
    intro s h
    have hs : twoSeedRun (w :: t) s = twoSeedRun t (twoSeedStep s w) := rfl
    rw [hs]
    exact ih _ (twoSeedInv_step s w h)

theorem seedInTxn_lockHeld : ∀ pc : SeedPC, seedInTxn pc = true → seedLockHeld pc = true := by
  decide

/-! Sample data for concrete evaluations. -/

/-- A well-formed source row named "a". -/
def sampleRowA : RawRow :=
  ⟨some (.vStr "a"), some (.vStr "da"), some (.vNum 1), some (.vStr "ua"),
   some (.vNum 2), some (.vNum 3), some (.vNum 4)⟩

/-- The coerced form of `sampleRowA`. -/
def sampleRecA : Record := ⟨.vStr "a", .vStr "da", 1, .vStr "ua", 2, 3, 4⟩

/-- A well-formed source row named "b". -/
def sampleRowB : RawRow :=
  ⟨some (.vStr "b"), some (.vStr "db"), some (.vNum 5), some (.vStr "ub"),
   some (.vNum 6), some (.vNum 7), some (.vNum 8)⟩

/-- The coerced form of `sampleRowB`. -/
def sampleRecB : Record := ⟨.vStr "b", .vStr "db", 5, .vStr "ub", 6, 7, 8⟩

/-- A row whose `original_price` cell holds non-numeric text. -/
def badRow : RawRow :=
  ⟨some (.vStr "bad"), some (.vStr "d"), some (.vStr "x"), some (.vStr "u"),
   some (.vNum 1), some (.vNum 1), some (.vNum 1)⟩

/-- A row whose `original_price` cell is missing (NaN). -/
def missingRow : RawRow :=
  ⟨some (.vStr "m"), some (.vStr "d"), none, some (.vStr "u"),
   some (.vNum 1), some (.vNum 1), some (.vNum 1)⟩

/-! Claim theorems. -/

/-- C1, counterexample: the claim that at most one reconciliation
transaction executes at a time regardless of trigger source is false —
the admin upload path acquires no lock, so the interleaving where
`run_seeding` acquires the lock and opens its transaction, then the admin
upload opens its own transaction, leaves both mid-transaction at once. -/
theorem c1_counterexample :
    (seedAdminRun [true, true, false] ⟨false, .start, .start⟩).pcS = SeedPC.inTxn
    ∧ (seedAdminRun [true, true, false] ⟨false, .start, .start⟩).pcA = AdminPC.inTxn := by
  decide

/-- C1, amended: among `run_seeding` invocations alone (scheduled or
startup trigger) mutual exclusion does hold — under every interleaving of
two `run_seeding` tasks the two are never inside their transactions at the
same time — and a `run_seeding` that cannot acquire the slot immediately
returns skipped with the store untouched; the admin upload path, however,
is outside the gate (see the counterexample). -/
theorem c1_amended :
    (∀ sched : List Bool,
      (seedInTxn (twoSeedRun sched ⟨false, .start, .start⟩).pc1
        && seedInTxn (twoSeedRun sched ⟨false, .start, .start⟩).pc2) = false)
    ∧ ∀ (inp : SeedInput) (store : List Product),
        run_seeding false inp store = (.skipped, store) := by
  constructor
  · intro sched
    have hinv := twoSeedRun_inv sched ⟨false, .start, .start⟩ (by decide)
    cases h1 : seedInTxn (twoSeedRun sched ⟨false, .start, .start⟩).pc1
    · simp
    · cases h2 : seedInTxn (twoSeedRun sched ⟨false, .start, .start⟩).pc2
      · simp
      · exfalso
        have hl1 := seedInTxn_lockHeld _ h1
        have hl2 := seedInTxn_lockHeld _ h2
        unfold twoSeedInv at hinv
        rw [hl1, hl2] at hinv
        simp at hinv
  · intro inp store
    rfl

/-- C2, counterexample: the claim that a failed or skipped scheduled run
leaves `_last_hash` unmodified is false — the watcher sets
`_last_hash = new_hash` unconditionally after calling `run_seeding`, which
swallows its own failures.  Concretely: on a fresh state, a tick whose run
is skipped (lock busy) still records the digest, and a tick whose run hits
a connection error (rolled back) also records the digest. -/
theorem c2_counterexample :
    watch_tick ⟨some "a", false, SeedInput.connError⟩ ⟨none, []⟩
      = (⟨some "a", []⟩, some SeedOutcome.skipped)
    ∧ watch_tick ⟨some "b", true, SeedInput.connError⟩ ⟨none, []⟩
      = (⟨some "b", []⟩, some SeedOutcome.errorRolledBack) := by
  constructor <;> rfl

/-- C2, amended: on a tick whose fetched digest is truthy and differs from
the stored one, `_last_hash` is updated to the fetched digest regardless
of whether the triggered run succeeded, failed, or was skipped (the first
conjunct: the new `_last_hash` does not depend on the lock state or the
run's fetch/parse effects); `_last_hash` — and the whole state — is left
unmodified only when the digest fetch itself fails or the digest is
unchanged (second and third conjuncts). -/
theorem c2_amended :
    (∀ (env : TickEnv) (st : WatchState) (l2 : Bool) (i2 : SeedInput),
      (watch_tick ⟨env.hashResult, l2, i2⟩ st).1.lastHash
        = (watch_tick env st).1.lastHash)
    ∧ (∀ (l : Bool) (i : SeedInput) (st : WatchState),
      watch_tick ⟨none, l, i⟩ st = (st, none))
    ∧ ∀ (env : TickEnv) (st : WatchState),
      (watch_tick env st).1.lastHash
        = if truthyHash env.hashResult && decide (env.hashResult ≠ st.lastHash)
          then env.hashResult else st.lastHash := by
  refine ⟨?_, ?_, ?_⟩
  · intro env st l2 i2
    by_cases h : truthyHash env.hashResult = true ∧ ¬env.hashResult = st.lastHash
    · simp [watch_tick, h]
    · simp [watch_tick, h]
  · intro l i st
    rfl
  · intro env st
    by_cases h : truthyHash env.hashResult = true ∧ ¬env.hashResult = st.lastHash
    · simp [watch_tick, h]
    · simp [watch_tick, h]

/-- C7, code bug: the startup handler is meant to fire one immediate sync
run and then start the background watcher, but it calls
`excel_updater.sync_excel_with_database()` and `file_watcher.start_watcher()`
— neither name exists in those modules (they define `run_seeding` and
`start_watcher_in_thread`), so both calls raise `AttributeError`, both
try/except blocks catch it, and at startup no sync run executes and no
watcher thread starts. -/
theorem c7_startup_broken :
    startup_event.syncRan = false
    ∧ startup_event.syncErrorCaught = true
    ∧ startup_event.watcherStarted = false
    ∧ startup_event.watcherErrorCaught = true
    ∧ getattrOk excel_updater_attrs "run_seeding" = true
    ∧ getattrOk file_watcher_attrs "start_watcher_in_thread" = true := by
  decide

/-- C3: a numeric-coercion failure on any row k aborts the entire run on
both entry points: the exception propagates out of the row loop, the
session is rolled back, and the committed store is returned exactly as it
was before the run — no partial writes from rows 0..k-1 survive. -/
theorem c3_coercion_abort (store : List Product) (rows : List RawRow) (k : ℕ)
    (hk : k < rows.length)
    (hbad : pyFloat (fillna (rows.get ⟨k, hk⟩).original_price) = none
          ∨ pyFloat (fillna (rows.get ⟨k, hk⟩).retail_price) = none
          ∨ pyFloat (fillna (rows.get ⟨k, hk⟩).wholesaler_price) = none
          ∨ pyInt (fillna (rows.get ⟨k, hk⟩).stock) = none) :
    run_seeding true (.httpResponse 200 (.table rows)) store = (.errorRolledBack, store)
    ∧ admin_upload_excel (.table rows) store = (.http500, store) := by
  have hnone : coerceRow (rows.get ⟨k, hk⟩) = none := coerceRow_eq_none _ hbad
  have hmem : rows.get ⟨k, hk⟩ ∈ rows := List.get_mem rows k hk
  have hpr := processRows_bad rows _ hmem hnone ⟨⟨store, []⟩, 0, 0⟩
  constructor
  · simp [run_seeding, hpr]
  · simp [admin_upload_excel, hpr]

/-- C3, witness: a one-row document whose `original_price` is the text
"x" leaves an empty store empty on both paths. -/
theorem c3_witness :
    run_seeding true (.httpResponse 200 (.table [badRow])) [] = (.errorRolledBack, [])
    ∧ admin_upload_excel (.table [badRow]) [] = (.http500, []) :=
  c3_coercion_abort [] [badRow] 0 (by decide) (Or.inl (by decide))

/-- C10: a missing numeric cell is normalized by `fillna` to the empty
string, numeric coercion of the empty string fails (it is never defaulted
to zero), and therefore the whole run aborts with rollback and zero store
writes on both entry points. -/
theorem c10_missing_cell (store : List Product) (rows : List RawRow) (k : ℕ)
    (hk : k < rows.length)
    (hmiss : (rows.get ⟨k, hk⟩).original_price = none
           ∨ (rows.get ⟨k, hk⟩).retail_price = none
           ∨ (rows.get ⟨k, hk⟩).wholesaler_price = none
           ∨ (rows.get ⟨k, hk⟩).stock = none) :
    fillna none = Value.vStr ""
    ∧ pyFloat (Value.vStr "") = none
    ∧ pyInt (Value.vStr "") = none
    ∧ run_seeding true (.httpResponse 200 (.table rows)) store = (.errorRolledBack, store)
    ∧ admin_upload_excel (.table rows) store = (.http500, store) := by
  have hbad : pyFloat (fillna (rows.get ⟨k, hk⟩).original_price) = none
      ∨ pyFloat (fillna (rows.get ⟨k, hk⟩).retail_price) = none
      ∨ pyFloat (fillna (rows.get ⟨k, hk⟩).wholesaler_price) = none
      ∨ pyInt (fillna (rows.get ⟨k, hk⟩).stock) = none := by
    rcases hmiss with h | h | h | h
    · exact Or.inl (by rw [h]; decide)
    · exact Or.inr (Or.inl (by rw [h]; decide))
    · exact Or.inr (Or.inr (Or.inl (by rw [h]; decide)))
    · exact Or.inr (Or.inr (Or.inr (by rw [h]; decide)))
  have hnone : coerceRow (rows.get ⟨k, hk⟩) = none := coerceRow_eq_none _ hbad
  have hmem : rows.get ⟨k, hk⟩ ∈ rows := List.get_mem rows k hk
  have hpr := processRows_bad rows _ hmem hnone ⟨⟨store, []⟩, 0, 0⟩
  refine ⟨rfl, by decide, by decide, ?_, ?_⟩
  · simp [run_seeding, hpr]
  · simp [admin_upload_excel, hpr]

/-- C10, witness: a one-row document whose `original_price` cell is
missing aborts both paths on an empty store. -/
theorem c10_witness :
    fillna none = Value.vStr ""
    ∧ pyFloat (Value.vStr "") = none
    ∧ pyInt (Value.vStr "") = none
    ∧ run_seeding true (.httpResponse 200 (.table [missingRow])) [] = (.errorRolledBack, [])
    ∧ admin_upload_excel (.table [missingRow]) [] = (.http500, []) :=
  c10_missing_cell [] [missingRow] 0 (by decide) (Or.inl (by decide))

/-- C4: on a fully coercible document the run succeeds and processes the
records in input order; because queries see only the pre-run committed
rows (autoflush off) and updates never change a stored name, a record
counts as `updated` exactly when its name is present in the pre-run store
and as `added` exactly when it is absent; the final store is the in-order
overwrite of first matching rows for the present records, followed by the
insertions, in input order, of the absent ones. -/
theorem c4_reconcile (store : List Product) (rows : List RawRow) (rs : List Record)
    (hc : coerceRows rows = some rs) :
    run_seeding true (.httpResponse 200 (.table rows)) store =
      (.success (rs.filter fun r => !presentIn store r).length
                (rs.filter fun r => presentIn store r).length,
       (rs.filter fun r => presentIn store r).foldl updateFirst store
         ++ (rs.filter fun r => !presentIn store r).map Record.toProduct) :=
  run_seeding_success store rows rs hc

/-- C4, witness: one new record against a store holding one other-named
product adds it. -/
theorem c4_witness :
    run_seeding true (.httpResponse 200 (.table [sampleRowA])) [Record.toProduct sampleRecB] =
      (.success ([sampleRecA].filter fun r => !presentIn [Record.toProduct sampleRecB] r).length
                ([sampleRecA].filter fun r => presentIn [Record.toProduct sampleRecB] r).length,
       ([sampleRecA].filter fun r => presentIn [Record.toProduct sampleRecB] r).foldl
           updateFirst [Record.toProduct sampleRecB]
         ++ ([sampleRecA].filter fun r => !presentIn [Record.toProduct sampleRecB] r).map
             Record.toProduct) :=
  c4_reconcile [Record.toProduct sampleRecB] [sampleRowA] [sampleRecA] (by decide)

/-- C5: on a record set with pairwise-distinct names none of which is in
the store, the first run adds all N records and updates none, the second
identical run adds none and updates all N, and the stored state after the
second run is identical to the state after the first. -/
theorem c5_idempotent (store : List Product) (rows : List RawRow) (rs : List Record)
    (hc : coerceRows rows = some rs)
    (hnodup : (rs.map fun r => r.name).Nodup)
    (hfresh : ∀ r ∈ rs, r.name ∉ store.map Product.name) :
    run_seeding true (.httpResponse 200 (.table rows)) store
      = (.success rs.length 0, store ++ rs.map Record.toProduct)
    ∧ run_seeding true (.httpResponse 200 (.table rows)) (store ++ rs.map Record.toProduct)
      = (.success 0 rs.length, store ++ rs.map Record.toProduct) := by
  have hpf : ∀ r ∈ rs, presentIn store r = false := by
    intro r hr
    cases hv : presentIn store r
    · rfl
    · exact absurd ((presentIn_iff store r).mp hv) (hfresh r hr)
  have hfilterP : rs.filter (fun r => presentIn store r) = [] := by
    rw [List.filter_eq_nil_iff]
    intro r hr
    rw [hpf r hr]
    exact Bool.false_ne_true
  have hfilterA : rs.filter (fun r => !presentIn store r) = rs := by
    rw [List.filter_eq_self]
    intro r hr
    rw [hpf r hr]
    rfl
  constructor
  · rw [run_seeding_success store rows rs hc, hfilterP, hfilterA]
    simp
  · have hnames2 : (store ++ rs.map Record.toProduct).map Product.name
        = store.map Product.name ++ rs.map (fun r => r.name) := by
      rw [List.map_append, List.map_map]
      rfl
    have hpt : ∀ r ∈ rs, presentIn (store ++ rs.map Record.toProduct) r = true := by
      intro r hr
      apply (presentIn_iff _ r).mpr
      rw [hnames2]
      exact List.mem_append.mpr (Or.inr (List.mem_map.mpr ⟨r, hr, rfl⟩))
    have hfP2 : rs.filter (fun r => presentIn (store ++ rs.map Record.toProduct) r) = rs := by
      rw [List.filter_eq_self]
      intro r hr
      rw [hpt r hr]
    have hfA2 : rs.filter (fun r => !presentIn (store ++ rs.map Record.toProduct) r) = [] := by
      rw [List.filter_eq_nil_iff]
      intro r hr
      rw [hpt r hr]
      decide
    have hfix : rs.foldl updateFirst (store ++ rs.map Record.toProduct)
        = store ++ rs.map Record.toProduct := by
      apply foldl_eq_self
      intro r hr
      apply updateFirst_eq_self
      intro p hp hpn
      rcases List.mem_append.mp hp with hps | hpm
      · exfalso
        apply hfresh r hr
        rw [← hpn]
        exact List.mem_map.mpr ⟨p, hps, rfl⟩
      · obtain ⟨r2, hr2, hpe⟩ := List.mem_map.mp hpm
        have hname : r2.name = r.name := by
          rw [← hpe] at hpn
          exact hpn
        have hr2r : r2 = r := List.inj_on_of_nodup_map hnodup hr2 hr hname
        rw [← hpe, hr2r]
        exact overwrite_toProduct r
    rw [run_seeding_success (store ++ rs.map Record.toProduct) rows rs hc, hfP2, hfA2, hfix]
    simp

/-- C5, witness: two fresh distinct-named records on an empty store. -/
theorem c5_witness :
    run_seeding true (.httpResponse 200 (.table [sampleRowA, sampleRowB])) []
      = (.success 2 0, [] ++ [sampleRecA, sampleRecB].map Record.toProduct)
    ∧ run_seeding true (.httpResponse 200 (.table [sampleRowA, sampleRowB]))
        ([] ++ [sampleRecA, sampleRecB].map Record.toProduct)
      = (.success 0 2, [] ++ [sampleRecA, sampleRecB].map Record.toProduct) :=
  c5_idempotent [] [sampleRowA, sampleRowB] [sampleRecA, sampleRecB]
    (by decide) (by decide) (by decide)

/-- C6: on a tick whose digest fetch succeeds (yielding a nonempty MD5 hex
digest), `run_seeding` is attempted if and only if the digest differs from
the stored `_last_hash` (an absent `_last_hash` always counts as
different); when the digest matches, the tick performs no store writes and
no state change at all. -/
theorem c6_change_gate (env : TickEnv) (st : WatchState) (hash : String)
    (hf : env.hashResult = some hash) (hne : hash ≠ "") :
    ((watch_tick env st).2.isSome = true ↔ st.lastHash ≠ some hash)
    ∧ (st.lastHash = some hash → watch_tick env st = (st, none)) := by
  have ht : truthyHash env.hashResult = true := by
    rw [hf]
    have hie : hash.isEmpty = false := by
      cases he : hash.isEmpty
      · rfl
      · exact absurd ((String.isEmpty_iff hash).mp he) hne
    simp [truthyHash, hie]
  by_cases hd : st.lastHash = some hash
  · have hcond : ¬(truthyHash env.hashResult = true ∧ ¬env.hashResult = st.lastHash) := by
      rw [hf, hd]
      simp
    have htick : watch_tick env st = (st, none) := by
      simp [watch_tick, hcond]
    rw [htick]
    constructor
    · simp [hd]
    · intro _
      rfl
  · have hcond : truthyHash env.hashResult = true ∧ ¬env.hashResult = st.lastHash := by
      refine ⟨ht, ?_⟩
      rw [hf]
      exact fun hcontra => hd hcontra.symm
    constructor
    · simp [watch_tick, hcond, hd]
    · intro hcontra
      exact absurd hcontra hd

/-- C6, witness: a tick whose digest equals the stored one does nothing. -/
theorem c6_witness :
    watch_tick ⟨some "h1", true, SeedInput.connError⟩ ⟨some "h1", []⟩
      = (⟨some "h1", []⟩, none) :=
  (c6_change_gate ⟨some "h1", true, SeedInput.connError⟩ ⟨some "h1", []⟩ "h1"
    rfl (by decide)).2 rfl

/-- C8: a connection error is caught and rolled back with the store
untouched; a non-success HTTP status returns early — before parsing, so
the result does not depend on the body — with the store untouched and a
distinct outcome; and a digest-fetch failure leaves the watcher state
unchanged, the loop body being a total function that proceeds to the next
tick. -/
theorem c8_fetch_failure (store : List Product) (body : ParseOutcome) (c : ℕ)
    (hc : c ≠ 200) (l : Bool) (i : SeedInput) (st : WatchState) :
    run_seeding true .connError store = (.errorRolledBack, store)
    ∧ run_seeding true (.httpResponse c body) store = (.fetchFailed c, store)
    ∧ watch_tick ⟨none, l, i⟩ st = (st, none) := by
  refine ⟨rfl, ?_, rfl⟩
  simp [run_seeding, hc]

/-- C8, witness: status 404 and a connection error on an empty store. -/
theorem c8_witness :
    run_seeding true SeedInput.connError [] = (.errorRolledBack, [])
    ∧ run_seeding true (.httpResponse 404 (.table [sampleRowA])) [] = (.fetchFailed 404, [])
    ∧ watch_tick ⟨none, true, SeedInput.connError⟩ ⟨none, []⟩ = (⟨none, []⟩, none) :=
  c8_fetch_failure [] (.table [sampleRowA]) 404 (by decide) true SeedInput.connError ⟨none, []⟩

/-- C9, counterexample: the claim that reconciliation never creates two
rows with the same name is false — on an empty store (names trivially
unique) a document holding the same new name twice inserts two rows named
"a", because autoflush is disabled (the second lookup cannot see the first
pending insert) and `Product.name` has no unique constraint. -/
theorem c9_counterexample :
    (((run_seeding true (.httpResponse 200 (.table [sampleRowA, sampleRowA])) []).2.map
        Product.name).count (Value.vStr "a") = 2)
    ∧ (run_seeding true (.httpResponse 200 (.table [sampleRowA, sampleRowA])) []).1
        = SeedOutcome.success 2 0 := by
  constructor <;> decide

/-- C9, amended: provided every name that is absent from the pre-run store
occurs at most once among the input records (duplicates of already-stored
names are harmless, since both occurrences take the update path), a
successful run preserves the at-most-once name invariant. -/
theorem c9_amended (store : List Product) (rows : List RawRow) (rs : List Record)
    (hc : coerceRows rows = some rs)
    (hstore : (store.map Product.name).Nodup)
    (hnew : ((rs.filter fun r => !presentIn store r).map fun r => r.name).Nodup) :
    ((run_seeding true (.httpResponse 200 (.table rows)) store).2.map Product.name).Nodup := by
  have h2 : (run_seeding true (.httpResponse 200 (.table rows)) store).2
      = (rs.filter fun r => presentIn store r).foldl updateFirst store
        ++ (rs.filter fun r => !presentIn store r).map Record.toProduct := by
    rw [run_seeding_success store rows rs hc]
  rw [h2, List.map_append, foldl_updateFirst_map_name]
  have hmm : ((rs.filter fun r => !presentIn store r).map Record.toProduct).map Product.name
      = (rs.filter fun r => !presentIn store r).map fun r => r.name := by
    rw [List.map_map]
    rfl
  rw [hmm]
  apply List.Nodup.append hstore hnew
  intro x hx1 hx2
  obtain ⟨r, hr, hre⟩ := List.mem_map.mp hx2
  have hrf := List.mem_filter.mp hr
  have habs : presentIn store r = false := by
    cases hv : presentIn store r
    · rfl
    · rw [hv] at hrf
      simp at hrf
  have hpres : presentIn store r = true := by
    apply (presentIn_iff store r).mpr
    rw [hre]
    exact hx1
  rw [habs] at hpres
  exact Bool.false_ne_true hpres

/-- C9 amended, witness: two distinct fresh names stay unique. -/
theorem c9_amended_witness :
    ((run_seeding true (.httpResponse 200 (.table [sampleRowA, sampleRowB])) []).2.map
        Product.name).Nodup :=
  c9_amended [] [sampleRowA, sampleRowB] [sampleRecA, sampleRecB]
    (by decide) (by decide) (by decide)
